import Mathlib

/-!
Verification of the core numerical algorithms of the DIP-CTV image
colorization program (`src/image_colorization.py`).

Conventions of the shallow embedding:
* tensors of real numbers are total functions over `Fin`-indexed grids with
  values in `ℚ` (exact arithmetic in place of floating point);
* the frozen predictor network, the generative prior network, the Adam
  optimizer, the fixed-kernel downsampler and the resize/upsample adapter
  are external collaborators of the core and are passed in as opaque
  function parameters;
* `torch.sqrt` is an external numerical primitive and is likewise passed as
  a function parameter `sqrtF`, so every definition stays executable;
* the fixed 313-entry chrominance palette `COEFS` lives in
  `src/coef_chrominance.py`, which is not part of the staged sources, so
  every definition takes the palette as a parameter
  `coefs : Fin 313 → Fin 2 → ℚ` (per the spec it is a fixed ordered set of
  313 (a,b) coefficient pairs in a normalized range);
* `torch.argmin` / `torch.argmax` along the bin axis break ties by the
  lowest index; they are embedded as `argmin313` / `argmax313` below.
-/

/-- A `c`-channel square image of side `s` with rational entries. -/
abbrev Img (c s : ℕ) : Type := Fin c → Fin s → Fin s → ℚ

/-- The universe of palette bins is nonempty. -/
lemma univ_nonempty313 : (Finset.univ : Finset (Fin 313)).Nonempty :=
  ⟨0, Finset.mem_univ 0⟩

/-- `torch.argmin` over the 313 palette bins: the lowest index attaining the
minimum value. -/
def argmin313 (f : Fin 313 → ℚ) : Fin 313 :=
  (Finset.univ.filter fun b => f b = Finset.univ.inf' univ_nonempty313 f).min'
    (by
      obtain ⟨b, hb, hfb⟩ := Finset.exists_mem_eq_inf' univ_nonempty313 f
      exact ⟨b, Finset.mem_filter.mpr ⟨hb, hfb.symm⟩⟩)

/-- `torch.argmax` over the 313 palette bins: the lowest index attaining the
maximum value. -/
def argmax313 (f : Fin 313 → ℚ) : Fin 313 :=
  (Finset.univ.filter fun b => f b = Finset.univ.sup' univ_nonempty313 f).min'
    (by
      obtain ⟨b, hb, hfb⟩ := Finset.exists_mem_eq_sup' univ_nonempty313 f
      exact ⟨b, Finset.mem_filter.mpr ⟨hb, hfb.symm⟩⟩)

lemma argmin313_attains (f : Fin 313 → ℚ) :
    f (argmin313 f) = Finset.univ.inf' univ_nonempty313 f := by
  have h := Finset.min'_mem
    (Finset.univ.filter fun b => f b = Finset.univ.inf' univ_nonempty313 f)
    (by
      obtain ⟨b, hb, hfb⟩ := Finset.exists_mem_eq_inf' univ_nonempty313 f
      exact ⟨b, Finset.mem_filter.mpr ⟨hb, hfb.symm⟩⟩)
  exact (Finset.mem_filter.mp h).2

lemma argmin313_le (f : Fin 313 → ℚ) (j : Fin 313) : f (argmin313 f) ≤ f j := by
  rw [argmin313_attains f]
  exact Finset.inf'_le f (Finset.mem_univ j)

lemma argmin313_least (f : Fin 313 → ℚ) (j : Fin 313)
    (hj : f j ≤ f (argmin313 f)) : argmin313 f ≤ j := by
  have hmin : f j = Finset.univ.inf' univ_nonempty313 f :=
    le_antisymm (le_trans hj (le_of_eq (argmin313_attains f)))
      (Finset.inf'_le f (Finset.mem_univ j))
  unfold argmin313
  apply Finset.min'_le
  rw [Finset.mem_filter]
  exact ⟨Finset.mem_univ j, hmin⟩

lemma argmax313_attains (f : Fin 313 → ℚ) :
    f (argmax313 f) = Finset.univ.sup' univ_nonempty313 f := by
  have h := Finset.min'_mem
    (Finset.univ.filter fun b => f b = Finset.univ.sup' univ_nonempty313 f)
    (by
      obtain ⟨b, hb, hfb⟩ := Finset.exists_mem_eq_sup' univ_nonempty313 f
      exact ⟨b, Finset.mem_filter.mpr ⟨hb, hfb.symm⟩⟩)
  exact (Finset.mem_filter.mp h).2

lemma argmax313_ge (f : Fin 313 → ℚ) (j : Fin 313) : f j ≤ f (argmax313 f) := by
  rw [argmax313_attains f]
  exact Finset.le_sup' f (Finset.mem_univ j)

lemma argmax313_least (f : Fin 313 → ℚ) (j : Fin 313)
    (hj : f (argmax313 f) ≤ f j) : argmax313 f ≤ j := by
  have hmax : f j = Finset.univ.sup' univ_nonempty313 f :=
    le_antisymm (Finset.le_sup' f (Finset.mem_univ j))
      (le_trans (le_of_eq (argmax313_attains f).symm) hj)
  unfold argmax313
  apply Finset.min'_le
  rw [Finset.mem_filter]
  exact ⟨Finset.mem_univ j, hmax⟩

attribute [irreducible] argmin313 argmax313

/-- `coefs_to_128 = 0.5 * (COEFS + 1)`: the palette coefficients rescaled
from the normalized range `[-1, 1]` to `[0, 1]`, as computed in
`get_initialized_image` and `projection_chrom`. -/
def coefsTo01 (coefs : Fin 313 → Fin 2 → ℚ) (b : Fin 313) (k : Fin 2) : ℚ :=
  1 / 2 * (coefs b k + 1)

/-- The per-pixel squared Euclidean distance from the chrominance pair
`(a2, b2)` to palette entry `b` in the `[0, 1]` representation, the quantity
`torch.pow(coefs_a - image[0,1,:], 2) + torch.pow(coefs_b - image[0,2,:], 2)`
minimized in `projection_chrom`. -/
def chromDist (coefs : Fin 313 → Fin 2 → ℚ) (a2 b2 : ℚ) (b : Fin 313) : ℚ :=
  (coefsTo01 coefs b 0 - a2) ^ 2 + (coefsTo01 coefs b 1 - b2) ^ 2

/-- `LoriaImageColorization.projection_chrom`: project every pixel's
chrominance onto the nearest palette entry (in the `[0, 1]` representation)
and overwrite channel 0 with `luminance_64 / 100`. -/
def projection_chrom (coefs : Fin 313 → Fin 2 → ℚ)
    (lum64 : Fin 64 → Fin 64 → ℚ) (image : Img 3 64) : Img 3 64 :=
  fun c h w =>
    if c = 0 then lum64 h w / 100
    else if c = 1 then
      coefsTo01 coefs (argmin313 (chromDist coefs (image 1 h w) (image 2 h w))) 0
    else
      coefsTo01 coefs (argmin313 (chromDist coefs (image 1 h w) (image 2 h w))) 1

/-- `LoriaImageColorization.get_initialized_image`: channel 0 is
`luminance_64 / 100`; channels 1 and 2 hold, for each pixel, the `[0, 1]`
palette coefficients of the bin maximizing the predicted distribution. -/
def get_initialized_image (coefs : Fin 313 → Fin 2 → ℚ)
    (proba_distrib : Fin 313 → Fin 64 → Fin 64 → ℚ)
    (lum64 : Fin 64 → Fin 64 → ℚ) : Img 3 64 :=
  fun c h w =>
    if c = 0 then lum64 h w / 100
    else if c = 1 then
      coefsTo01 coefs (argmax313 fun b => proba_distrib b h w) 0
    else
      coefsTo01 coefs (argmax313 fun b => proba_distrib b h w) 1

/-- Modelled from the spec: `BaseColor.unnormalize_ab` lives in
`src/eccv16`, which is not among the staged sources. Per the spec it "maps
palette coefficients from their native normalized representation to the true
chrominance numeric range", i.e. it scales by the LAB ab half-range 110. -/
def unnormalize_ab (x : ℚ) : ℚ := 110 * x

/-- The einsum `"abcd,bn->nbcd"` of `ECCVImage.process_eccv`: per-bin
normalized chrominance contributions `distribution[bin,h,w] * COEFS[bin,n]`. -/
def proba_chrom_norm (proba_distrib : Fin 313 → Fin 64 → Fin 64 → ℚ)
    (coefs : Fin 313 → Fin 2 → ℚ) : Fin 2 → Fin 313 → Fin 64 → Fin 64 → ℚ :=
  fun n b h w => proba_distrib b h w * coefs b n

/-- `BASE_COLOR.unnormalize_ab` applied to the normalized contributions. -/
def proba_chrom_unnorm (proba_distrib : Fin 313 → Fin 64 → Fin 64 → ℚ)
    (coefs : Fin 313 → Fin 2 → ℚ) : Fin 2 → Fin 313 → Fin 64 → Fin 64 → ℚ :=
  fun n b h w => unnormalize_ab (proba_chrom_norm proba_distrib coefs n b h w)

/-- `self.chrom_mean_unnorm = self.proba_chrom_unnorm.sum(axis=1)`: the
expectation decode of the distribution. -/
def chrom_mean_unnorm (proba_distrib : Fin 313 → Fin 64 → Fin 64 → ℚ)
    (coefs : Fin 313 → Fin 2 → ℚ) : Fin 2 → Fin 64 → Fin 64 → ℚ :=
  fun n h w => ∑ b, proba_chrom_unnorm proba_distrib coefs n b h w

/-- The tail of `ECCVImage.process_eccv`: upsample `lab_mean_64` to 256×256
through the external resize adapter, then overwrite channel 0 with the
high-resolution `luminance_256` (`self.output_upsampled[:, [0], :] =
self.luminance_256`). -/
def output_upsampled (upsample : Img 3 64 → Img 3 256)
    (lab_mean_64 : Img 3 64) (lum256 : Fin 256 → Fin 256 → ℚ) : Img 3 256 :=
  fun c h w => if c = 0 then lum256 h w else upsample lab_mean_64 c h w

/-- `torch.nn.MSELoss()` (mean reduction) between two `(1,3,64,64)` maps. -/
def mseLoss (a b : Img 3 64) : ℚ :=
  (∑ c, ∑ h, ∑ w, (a c h w - b c h w) ^ 2) / (3 * 64 * 64)

/-- `torch.nn.MSELoss()` (mean reduction) between two `(256,256)` maps. -/
def mseLossLum (a b : Fin 256 → Fin 256 → ℚ) : ℚ :=
  (∑ h, ∑ w, (a h w - b h w) ^ 2) / (256 * 256)

/-- `LoriaImageColorization.loss_coupled_tv`: the composite loss on a network
output `out`, with the external square root (`torch.sqrt`) and the external
fixed-kernel downsampler passed in as parameters. -/
def loss_coupled_tv (sqrtF : ℚ → ℚ) (downsampler : Img 3 256 → Img 3 64)
    (lum256 : Fin 256 → Fin 256 → ℚ) (target_dip : Img 3 64)
    (out : Img 3 256) (gamma : ℚ) : ℚ :=
  let lum : Fin 256 → Fin 256 → ℚ := fun h w => lum256 h w / 100
  let ab : Fin 2 → Fin 256 → Fin 256 → ℚ := fun c h w => out c.succ h w
  let dl_h : Fin 256 → Fin 255 → ℚ :=
    fun h w => gamma * (lum h w.succ - lum h w.castSucc) ^ 2
  let dl_w : Fin 255 → Fin 256 → ℚ :=
    fun h w => gamma * (lum h.succ w - lum h.castSucc w) ^ 2
  let dab_h : Fin 2 → Fin 256 → Fin 255 → ℚ :=
    fun c h w => (ab c h w.succ - ab c h w.castSucc) ^ 2
  let dab_w : Fin 2 → Fin 255 → Fin 256 → ℚ :=
    fun c h w => (ab c h.succ w - ab c h.castSucc w) ^ 2
  let epsilon : ℚ := 1 / 100000
  let tv_c : ℚ := 5 / 1000000 *
    ∑ c : Fin 2, ∑ h : Fin 255, ∑ w : Fin 255,
      sqrtF (epsilon + dl_h h.castSucc w + dl_w h w.castSucc
        + dab_h c h.castSucc w + dab_w c h w.castSucc)
  let l2 : ℚ := mseLoss (downsampler out) target_dip
  let loss_lum : ℚ := mseLossLum (fun h w => out 0 h w) (fun h w => lum256 h w / 100)
  l2 + loss_lum + tv_c

/-- Spec-side definition, following the spec's words: the fidelity term is
the MSE between the downsampled output and the target, over 3 channels. -/
def fidelitySpec (downsampler : Img 3 256 → Img 3 64) (out : Img 3 256)
    (target : Img 3 64) : ℚ :=
  mseLoss (downsampler out) target

/-- Spec-side definition: the luminance term is the MSE between the output's
channel 0 and `luminance256 / 100`. -/
def luminanceLossSpec (out : Img 3 256) (lum256 : Fin 256 → Fin 256 → ℚ) : ℚ :=
  mseLossLum (fun h w => out 0 h w) (fun h w => lum256 h w / 100)

/-- Spec-side definition: horizontal squared difference of `luminance256/100`,
cropped to the common 255×255 shape. -/
def lumDiffH (lum256 : Fin 256 → Fin 256 → ℚ) (h w : Fin 255) : ℚ :=
  (lum256 h.castSucc w.succ / 100 - lum256 h.castSucc w.castSucc / 100) ^ 2

/-- Spec-side definition: vertical squared difference of `luminance256/100`,
cropped to the common 255×255 shape. -/
def lumDiffV (lum256 : Fin 256 → Fin 256 → ℚ) (h w : Fin 255) : ℚ :=
  (lum256 h.succ w.castSucc / 100 - lum256 h.castSucc w.castSucc / 100) ^ 2

/-- Spec-side definition: horizontal squared difference of the output's
(a,b) channels, cropped to the common 255×255 shape. -/
def abDiffH (out : Img 3 256) (c : Fin 2) (h w : Fin 255) : ℚ :=
  (out c.succ h.castSucc w.succ - out c.succ h.castSucc w.castSucc) ^ 2

/-- Spec-side definition: vertical squared difference of the output's
(a,b) channels, cropped to the common 255×255 shape. -/
def abDiffV (out : Img 3 256) (c : Fin 2) (h w : Fin 255) : ℚ :=
  (out c.succ h.succ w.castSucc - out c.succ h.castSucc w.castSucc) ^ 2

/-- Spec-side definition: the coupled total-variation term — sum the four
aligned difference maps (luminance differences scaled by `gamma`), add
`1e-5`, apply the square root elementwise, sum over all pixels, scale by
`5e-6`. -/
def coupledTVSpec (sqrtF : ℚ → ℚ) (lum256 : Fin 256 → Fin 256 → ℚ)
    (out : Img 3 256) (gamma : ℚ) : ℚ :=
  5 / 1000000 *
    ∑ c : Fin 2, ∑ h : Fin 255, ∑ w : Fin 255,
      sqrtF (1 / 100000 + gamma * lumDiffH lum256 h w + gamma * lumDiffV lum256 h w
        + abDiffH out c h w + abDiffV out c h w)

/-- An n-dimensional array as `convert_to_single_channel` sees one: a shape
and flat row-major data. -/
structure Tensor where
  shape : List ℕ
  data : List ℚ
deriving DecidableEq

/-- `image.select(dim, i)`: the slice of `t` at index `i` along axis `dim`,
in row-major layout. -/
def Tensor.select (t : Tensor) (dim i : ℕ) : Tensor :=
  let stride : ℕ := (t.shape.drop (dim + 1)).prod
  let size : ℕ := t.shape.getD dim 1
  let newShape : List ℕ := t.shape.take dim ++ t.shape.drop (dim + 1)
  { shape := newShape,
    data := (List.range newShape.prod).map
      (fun k => t.data.getD (k / stride * (size * stride) + i * stride + k % stride) 0) }

/-- `convert_to_single_channel`: only for a 3-dimensional array, scan axes
0, 1, 2 in order and return the first slice along the first axis of size 3;
any other input is returned unchanged. -/
def convert_to_single_channel (t : Tensor) : Tensor :=
  if t.shape.length = 3 then
    match (List.range 3).find? (fun dim => t.shape.getD dim 0 == 3) with
    | some dim => t.select dim 0
    | none => t
  else t

/-- The gradient-branch condition of `LoriaImageColorization.optimize`:
`j < 800 or (j % 200 != 0)`. -/
def gradCond (j : ℕ) : Prop := j < 800 ∨ j % 200 ≠ 0

instance gradCond.instDecidable (j : ℕ) : Decidable (gradCond j) := by
  unfold gradCond
  infer_instance

/-- Whether iteration `j` takes the re-projection branch (the negation of
the gradient-branch condition). -/
def isReprojStep (j : ℕ) : Bool :=
  !(decide (j < 800) || decide (j % 200 ≠ 0))

/-- The external collaborators of one optimization run: the prior network
applied to the frozen noise input (`net`), one Adam parameter update given
the current target (`optStep`), the fixed-kernel downsampler, the palette,
the predicted distribution and the low-resolution luminance. `P` is the
opaque type of the prior network's parameters. -/
structure DipCtx (P : Type) where
  net : P → Img 3 256
  optStep : P → Img 3 64 → P
  downsampler : Img 3 256 → Img 3 64
  coefs : Fin 313 → Fin 2 → ℚ
  distrib : Fin 313 → Fin 64 → Fin 64 → ℚ
  lum64 : Fin 64 → Fin 64 → ℚ

/-- The mutable state of `LoriaImageColorization` during `optimize`:
parameters, the latest network output (`self.out`, whose empty-tensor
sentinel `torch.zeros(0)` is modelled as `none`), and the fidelity target
`self.target_dip`. -/
structure DipState (P : Type) where
  params : P
  out : Option (Img 3 256)
  target : Img 3 64

/-- The state right before iteration 0: `self.out = torch.zeros(0)` and
`self.target_dip = self.get_initialized_image()`. -/
def initState {P : Type} (ctx : DipCtx P) (p0 : P) : DipState P :=
  { params := p0, out := none,
    target := get_initialized_image ctx.coefs ctx.distrib ctx.lum64 }

/-- The new target built by the re-projection branch: project the
downsampled latest output onto the palette, then overwrite channel 0 with
`luminance_64 / 100`. -/
def newTarget {P : Type} (ctx : DipCtx P) (o : Img 3 256) : Img 3 64 :=
  fun c h w =>
    if c = 0 then ctx.lum64 h w / 100
    else projection_chrom ctx.coefs ctx.lum64 (ctx.downsampler o) c h w

/-- One iteration of the `optimize` loop at index `j`. A gradient iteration
recomputes `self.out` from the current parameters and then updates the
parameters; a re-projection iteration only replaces the target, and fails
(`none`) if `self.out` still holds the empty sentinel. -/
def step {P : Type} (ctx : DipCtx P) (j : ℕ) (s : DipState P) :
    Option (DipState P) :=
  if gradCond j then
    some { params := ctx.optStep s.params s.target,
           out := some (ctx.net s.params),
           target := s.target }
  else
    match s.out with
    | some o => some { params := s.params, out := some o, target := newTarget ctx o }
    | none => none

/-- Run iterations `0, 1, …, n-1` of the `optimize` loop. -/
def runOpt {P : Type} (ctx : DipCtx P) (n : ℕ) (s : DipState P) :
    Option (DipState P) :=
  match n with
  | 0 => some s
  | Nat.succ k => (runOpt ctx k s).bind (step ctx k)

/-- The all-zero 256×256 image, used in concrete instantiations. -/
def zeroImg256 : Img 3 256 := fun _ _ _ => 0

/-- The all-zero 64×64 image, used in concrete instantiations. -/
def zeroImg64 : Img 3 64 := fun _ _ _ => 0

/-- A concrete palette: 313 distinct (a,b) pairs in the normalized range. -/
def cexCoefs : Fin 313 → Fin 2 → ℚ := fun b _ => (b : ℚ) / 313

/-- A concrete distribution: uniform over the 313 bins at every pixel. -/
def cexDistrib : Fin 313 → Fin 64 → Fin 64 → ℚ := fun _ _ _ => 1 / 313

/-- A concrete low-resolution luminance map. -/
def cexLum : Fin 64 → Fin 64 → ℚ := fun _ _ => 50

/-- A concrete 2-dimensional grayscale raster of shape (3, 2). -/
def cexGray : Tensor := { shape := [3, 2], data := [1, 2, 3, 4, 5, 6] }

/-- A concrete 3-dimensional tensor of shape (2, 3, 4) whose first size-3
axis is axis 1. -/
def wGray3 : Tensor :=
  { shape := [2, 3, 4], data := (List.range 24).map (fun k => (k : ℚ)) }

/-- A concrete optimization context over trivial parameters, used to witness
the loop theorems at concrete inputs. -/
def wCtx : DipCtx Unit :=
  { net := fun _ => zeroImg256, optStep := fun _ _ => (),
    downsampler := fun _ => zeroImg64, coefs := cexCoefs,
    distrib := cexDistrib, lum64 := cexLum }

/-- A concrete optimization state whose latest output is set. -/
def wState : DipState Unit :=
  { params := (), out := some zeroImg256, target := zeroImg64 }

/-- C5: for every input, the upsampled 256×256 LAB output of preprocessing
has channel 0 exactly equal to the high-resolution luminance `luminance256`,
whatever the external resize adapter produced there. -/
theorem C5_upsampled_luminance_overwrite (upsample : Img 3 64 → Img 3 256)
    (lab_mean_64 : Img 3 64) (lum256 : Fin 256 → Fin 256 → ℚ)
    (h w : Fin 256) :
    output_upsampled upsample lab_mean_64 lum256 0 h w = lum256 h w := by
  simp [output_upsampled]

/-- C8: the expectation decode satisfies
`mean[c,h,w] = Σ_bin distribution[bin,h,w] * unnormalize(palette[bin,c])`
for every distribution, palette, channel and pixel. -/
theorem C8_expectation_decode (proba_distrib : Fin 313 → Fin 64 → Fin 64 → ℚ)
    (coefs : Fin 313 → Fin 2 → ℚ) (n : Fin 2) (h w : Fin 64) :
    chrom_mean_unnorm proba_distrib coefs n h w
      = ∑ b, proba_distrib b h w * unnormalize_ab (coefs b n) := by
  unfold chrom_mean_unnorm proba_chrom_unnorm proba_chrom_norm unnormalize_ab
  refine Finset.sum_congr rfl fun b _ => ?_
  ring

/-- C3: the composite loss equals the sum of the fidelity term, the
luminance term and the coupled total-variation term as the spec states them,
with `gamma = 100`. -/
theorem C3_loss_decomposition (sqrtF : ℚ → ℚ)
    (downsampler : Img 3 256 → Img 3 64) (lum256 : Fin 256 → Fin 256 → ℚ)
    (target_dip : Img 3 64) (out : Img 3 256) :
    loss_coupled_tv sqrtF downsampler lum256 target_dip out 100
      = fidelitySpec downsampler out target_dip
        + luminanceLossSpec out lum256
        + coupledTVSpec sqrtF lum256 out 100 := by
  rfl

/-- C1 counterexample: for `numIter = 1201` the set of re-projection
iterations is not `{800, 1000}` — iteration 1200 also satisfies
`j >= 800 && j % 200 == 0` and lies below the exclusive bound 1201. -/
theorem C1_schedule_counterexample :
    (Finset.range 1201).filter (fun j => isReprojStep j = true)
      ≠ ({800, 1000} : Finset ℕ) := by
  intro hEq
  have h1 : (1200 : ℕ) ∈ (Finset.range 1201).filter (fun j => isReprojStep j = true) :=
    Finset.mem_filter.mpr ⟨Finset.mem_range.mpr (by norm_num), by decide⟩
  rw [hEq] at h1
  revert h1
  decide

set_option maxHeartbeats 2000000 in
set_option maxRecDepth 10000 in
/-- C1 (amended): with `numIter = 1000` the re-projection branch runs
exactly at iteration 800 and the other 999 iterations take the gradient
branch; with `numIter = 1201` the re-projection iterations are exactly
`{800, 1000, 1200}`. -/
theorem C1_schedule :
    (Finset.range 1000).filter (fun j => isReprojStep j = true) = ({800} : Finset ℕ)
    ∧ ((Finset.range 1000).filter (fun j => isReprojStep j = false)).card = 999
    ∧ (Finset.range 1201).filter (fun j => isReprojStep j = true)
        = ({800, 1000, 1200} : Finset ℕ) := by
  decide

lemma isReprojStep_eq_true_iff (j : ℕ) : isReprojStep j = true ↔ ¬ gradCond j := by
  unfold isReprojStep gradCond
  simp

/-- C2: a gradient iteration recomputes the output from the current
parameters, performs one optimizer update and leaves the target unchanged;
a re-projection iteration leaves the parameters and output unchanged and
replaces the target with the palette projection of the downsampled latest
output, channel 0 overwritten with `luminance_64 / 100`. -/
theorem C2_step_effect {P : Type} (ctx : DipCtx P) (j : ℕ) (s : DipState P) :
    (gradCond j →
      step ctx j s = some { params := ctx.optStep s.params s.target,
                            out := some (ctx.net s.params), target := s.target })
    ∧ (¬ gradCond j → ∀ o : Img 3 256, s.out = some o →
      step ctx j s = some { params := s.params, out := some o,
                            target := fun c h w =>
                              if c = 0 then ctx.lum64 h w / 100
                              else projection_chrom ctx.coefs ctx.lum64
                                (ctx.downsampler o) c h w }) := by
  constructor
  · intro hg
    simp [step, hg]
  · intro hg o ho
    simp [step, hg, ho]
    rfl

/-- C2 witness: both branches of the transition rule at concrete inputs
(`j = 0` is a gradient iteration, `j = 800` a re-projection iteration). -/
theorem C2_step_effect_witness :
    step wCtx 0 wState = some { params := wCtx.optStep wState.params wState.target,
                                out := some (wCtx.net wState.params),
                                target := wState.target }
    ∧ step wCtx 800 wState = some { params := wState.params, out := some zeroImg256,
                                    target := fun c h w =>
                                      if c = 0 then wCtx.lum64 h w / 100
                                      else projection_chrom wCtx.coefs wCtx.lum64
                                        (wCtx.downsampler zeroImg256) c h w } :=
  ⟨(C2_step_effect wCtx 0 wState).1 (Or.inl (by norm_num)),
   (C2_step_effect wCtx 800 wState).2 (by decide) zeroImg256 rfl⟩

lemma runOpt_invariant {P : Type} (ctx : DipCtx P) (p0 : P) (n : ℕ) :
    ∃ s, runOpt ctx n (initState ctx p0) = some s
      ∧ (1 ≤ n → s.out.isSome = true)
      ∧ (n ≤ 800 → s.target = (initState ctx p0).target) := by
  induction n with
  | zero =>
    exact ⟨initState ctx p0, rfl, by omega, fun _ => rfl⟩
  | succ k ih =>
    obtain ⟨s, hs, hout, htar⟩ := ih
    by_cases hg : gradCond k
    · refine ⟨{ params := ctx.optStep s.params s.target,
                out := some (ctx.net s.params), target := s.target }, ?_, ?_, ?_⟩
      · simp [runOpt, hs, step, hg]
      · intro _; rfl
      · intro hk
        exact htar (by omega)
    · have h800 : 800 ≤ k := by
        unfold gradCond at hg
        push_neg at hg
        omega
      have hsome : s.out.isSome = true := hout (by omega)
      obtain ⟨o, ho⟩ := Option.isSome_iff_exists.mp hsome
      refine ⟨{ params := s.params, out := some o, target := newTarget ctx o },
        ?_, ?_, ?_⟩
      · simp [runOpt, hs, step, hg, ho]
      · intro _; rfl
      · intro hk; omega

/-- C10: whenever a re-projection iteration `j` is reached, the run up to it
succeeds with a stored full network output (never the empty sentinel); for
every iteration budget `n ≤ 800` the run only takes gradient iterations
(every `k < 800` satisfies the gradient condition) and the fidelity target
still equals its initial value. -/
theorem C10_reprojection_safety {P : Type} (ctx : DipCtx P) (p0 : P) (j n : ℕ) :
    (isReprojStep j = true →
      ∃ s, runOpt ctx j (initState ctx p0) = some s ∧ s.out.isSome = true)
    ∧ (n ≤ 800 →
      ∃ s, runOpt ctx n (initState ctx p0) = some s
        ∧ s.target = (initState ctx p0).target)
    ∧ (∀ k, k < 800 → gradCond k) := by
  refine ⟨?_, ?_, ?_⟩
  · intro hj
    have hge : 800 ≤ j := by
      rw [isReprojStep_eq_true_iff] at hj
      unfold gradCond at hj
      push_neg at hj
      omega
    obtain ⟨s, hs, hout, _⟩ := runOpt_invariant ctx p0 j
    exact ⟨s, hs, hout (by omega)⟩
  · intro hn
    obtain ⟨s, hs, _, htar⟩ := runOpt_invariant ctx p0 n
    exact ⟨s, hs, htar hn⟩
  · intro k hk
    exact Or.inl hk

/-- C10 witness: the safety statement at the first re-projection iteration
`j = 800` and at the budget `n = 800`, over a concrete context. -/
theorem C10_reprojection_safety_witness :
    (∃ s, runOpt wCtx 800 (initState wCtx ()) = some s ∧ s.out.isSome = true)
    ∧ (∃ s, runOpt wCtx 800 (initState wCtx ()) = some s
        ∧ s.target = (initState wCtx ()).target) :=
  ⟨(C10_reprojection_safety wCtx () 800 800).1 (by decide),
   (C10_reprojection_safety wCtx () 800 800).2.1 (by norm_num)⟩

lemma projection_fixed (coefs : Fin 313 → Fin 2 → ℚ) (k : Fin 313) :
    coefsTo01 coefs
        (argmin313 (chromDist coefs (coefsTo01 coefs k 0) (coefsTo01 coefs k 1))) 0
      = coefsTo01 coefs k 0
    ∧ coefsTo01 coefs
        (argmin313 (chromDist coefs (coefsTo01 coefs k 0) (coefsTo01 coefs k 1))) 1
      = coefsTo01 coefs k 1 := by
  set g := chromDist coefs (coefsTo01 coefs k 0) (coefsTo01 coefs k 1) with hg
  set m := argmin313 g with hm
  have hk : g k = 0 := by
    rw [hg]
    unfold chromDist
    ring
  have hle : g m ≤ 0 := le_of_le_of_eq (argmin313_le g k) hk
  have h2 : (coefsTo01 coefs m 0 - coefsTo01 coefs k 0) ^ 2
      + (coefsTo01 coefs m 1 - coefsTo01 coefs k 1) ^ 2 ≤ 0 := by
    have he : g m = (coefsTo01 coefs m 0 - coefsTo01 coefs k 0) ^ 2
        + (coefsTo01 coefs m 1 - coefsTo01 coefs k 1) ^ 2 := by
      rw [hg]
      unfold chromDist
      rfl
    rw [he] at hle
    exact hle
  have ha : coefsTo01 coefs m 0 - coefsTo01 coefs k 0 = 0 := by
    have h3 : (coefsTo01 coefs m 0 - coefsTo01 coefs k 0) ^ 2 = 0 :=
      le_antisymm
        (by nlinarith [sq_nonneg (coefsTo01 coefs m 1 - coefsTo01 coefs k 1)])
        (sq_nonneg _)
    exact pow_eq_zero_iff (by norm_num) |>.mp h3
  have hb : coefsTo01 coefs m 1 - coefsTo01 coefs k 1 = 0 := by
    have h3 : (coefsTo01 coefs m 1 - coefsTo01 coefs k 1) ^ 2 = 0 :=
      le_antisymm
        (by nlinarith [sq_nonneg (coefsTo01 coefs m 0 - coefsTo01 coefs k 0)])
        (sq_nonneg _)
    exact pow_eq_zero_iff (by norm_num) |>.mp h3
  exact ⟨by linarith, by linarith⟩

/-- C6: the palette projection is idempotent — projecting an already
projected 3-channel 64×64 image returns the identical image, for every
palette, luminance map and input image. -/
theorem C6_projection_idempotent (coefs : Fin 313 → Fin 2 → ℚ)
    (lum64 : Fin 64 → Fin 64 → ℚ) (image : Img 3 64) :
    projection_chrom coefs lum64 (projection_chrom coefs lum64 image)
      = projection_chrom coefs lum64 image := by
  funext c h w
  fin_cases c
  · have l1 : projection_chrom coefs lum64 (projection_chrom coefs lum64 image) 0 h w
        = lum64 h w / 100 := rfl
    have l2 : projection_chrom coefs lum64 image 0 h w = lum64 h w / 100 := rfl
    exact l1.trans l2.symm
  · have l1 : projection_chrom coefs lum64 (projection_chrom coefs lum64 image) 1 h w
        = coefsTo01 coefs
            (argmin313 (chromDist coefs
              (coefsTo01 coefs
                (argmin313 (chromDist coefs (image 1 h w) (image 2 h w))) 0)
              (coefsTo01 coefs
                (argmin313 (chromDist coefs (image 1 h w) (image 2 h w))) 1))) 0 := rfl
    have l2 : projection_chrom coefs lum64 image 1 h w
        = coefsTo01 coefs
            (argmin313 (chromDist coefs (image 1 h w) (image 2 h w))) 0 := rfl
    exact l1.trans ((projection_fixed coefs
      (argmin313 (chromDist coefs (image 1 h w) (image 2 h w)))).1.trans l2.symm)
  · have l1 : projection_chrom coefs lum64 (projection_chrom coefs lum64 image) 2 h w
        = coefsTo01 coefs
            (argmin313 (chromDist coefs
              (coefsTo01 coefs
                (argmin313 (chromDist coefs (image 1 h w) (image 2 h w))) 0)
              (coefsTo01 coefs
                (argmin313 (chromDist coefs (image 1 h w) (image 2 h w))) 1))) 1 := rfl
    have l2 : projection_chrom coefs lum64 image 2 h w
        = coefsTo01 coefs
            (argmin313 (chromDist coefs (image 1 h w) (image 2 h w))) 1 := rfl
    exact l1.trans ((projection_fixed coefs
      (argmin313 (chromDist coefs (image 1 h w) (image 2 h w)))).2.trans l2.symm)

/-- C7: every output pixel of the palette projection carries the `[0, 1]`
coefficients of a palette entry whose squared Euclidean distance to the
input pixel's chrominance is minimal, with ties broken by the lowest index,
and channel 0 always equals `luminance_64 / 100`. -/
theorem C7_projection_nearest (coefs : Fin 313 → Fin 2 → ℚ)
    (lum64 : Fin 64 → Fin 64 → ℚ) (image : Img 3 64) (h w : Fin 64) :
    projection_chrom coefs lum64 image 0 h w = lum64 h w / 100
    ∧ ∃ b : Fin 313,
        projection_chrom coefs lum64 image 1 h w = coefsTo01 coefs b 0
        ∧ projection_chrom coefs lum64 image 2 h w = coefsTo01 coefs b 1
        ∧ (∀ b2 : Fin 313, chromDist coefs (image 1 h w) (image 2 h w) b
            ≤ chromDist coefs (image 1 h w) (image 2 h w) b2)
        ∧ (∀ b2 : Fin 313, chromDist coefs (image 1 h w) (image 2 h w) b2
            ≤ chromDist coefs (image 1 h w) (image 2 h w) b → b ≤ b2) := by
  refine ⟨rfl, argmin313 (chromDist coefs (image 1 h w) (image 2 h w)),
    rfl, rfl, ?_, ?_⟩
  · intro b2
    exact argmin313_le _ b2
  · intro b2 hb2
    exact argmin313_least _ b2 hb2

/-- C4 (amended): the initial fidelity target has channel 0 equal to
`luminance_64 / 100`, and for each pixel its (a,b) channels hold
`0.5 * (palette[argmax_bin distribution] + 1)` — the mode (arg-max)
selection with the palette coefficients rescaled to `[0, 1]`, ties broken
by the lowest bin index. -/
theorem C4_initial_target_mode (coefs : Fin 313 → Fin 2 → ℚ)
    (proba_distrib : Fin 313 → Fin 64 → Fin 64 → ℚ)
    (lum64 : Fin 64 → Fin 64 → ℚ) (h w : Fin 64) :
    get_initialized_image coefs proba_distrib lum64 0 h w = lum64 h w / 100
    ∧ ∃ b : Fin 313,
        (∀ b2 : Fin 313, proba_distrib b2 h w ≤ proba_distrib b h w)
        ∧ (∀ b2 : Fin 313, proba_distrib b h w ≤ proba_distrib b2 h w → b ≤ b2)
        ∧ get_initialized_image coefs proba_distrib lum64 1 h w
            = 1 / 2 * (coefs b 0 + 1)
        ∧ get_initialized_image coefs proba_distrib lum64 2 h w
            = 1 / 2 * (coefs b 1 + 1) := by
  refine ⟨rfl, argmax313 (fun b => proba_distrib b h w), ?_, ?_, rfl, rfl⟩
  · intro b2
    exact argmax313_ge (fun b => proba_distrib b h w) b2
  · intro b2 hb2
    exact argmax313_least (fun b => proba_distrib b h w) b2 hb2

/-- C4 witness: the amended statement at a concrete palette, distribution
and luminance map. -/
theorem C4_initial_target_mode_witness :
    get_initialized_image cexCoefs cexDistrib cexLum 0 0 0 = cexLum 0 0 / 100
    ∧ ∃ b : Fin 313,
        (∀ b2 : Fin 313, cexDistrib b2 0 0 ≤ cexDistrib b 0 0)
        ∧ (∀ b2 : Fin 313, cexDistrib b 0 0 ≤ cexDistrib b2 0 0 → b ≤ b2)
        ∧ get_initialized_image cexCoefs cexDistrib cexLum 1 0 0
            = 1 / 2 * (cexCoefs b 0 + 1)
        ∧ get_initialized_image cexCoefs cexDistrib cexLum 2 0 0
            = 1 / 2 * (cexCoefs b 1 + 1) :=
  C4_initial_target_mode cexCoefs cexDistrib cexLum 0 0

/-- C4 counterexample: over the concrete palette `cexCoefs` and the uniform
distribution (arg-max bin 0 under the lowest-index tie-break), the initial
target's a-channel value `0.5 * (palette[0] + 1) = 1/2` differs from the
unnormalized mode decode `unnormalize_ab (palette[0]) = 0`, so the initial
target is not the `ChrominanceDecoder` mode decode. -/
theorem C4_initial_target_counterexample :
    get_initialized_image cexCoefs cexDistrib cexLum 1 0 0
      ≠ unnormalize_ab (cexCoefs (argmax313 fun b => cexDistrib b 0 0) 0) := by
  have h0 : argmax313 (fun b => cexDistrib b 0 0) = 0 := by
    have h := argmax313_least (fun b => cexDistrib b 0 0) 0 (by simp [cexDistrib])
    exact le_antisymm h (Fin.zero_le _)
  have hval : get_initialized_image cexCoefs cexDistrib cexLum 1 0 0
      = 1 / 2 * (cexCoefs (argmax313 fun b => cexDistrib b 0 0) 0 + 1) := rfl
  rw [hval, h0]
  simp [cexCoefs, unnormalize_ab]

lemma find?_shape_cons (s : List ℕ) (a : ℕ) (l : List ℕ) :
    List.find? (fun dim => s.getD dim 0 == 3) (a :: l)
      = if s.getD a 0 = 3 then some a
        else List.find? (fun dim => s.getD dim 0 == 3) l := by
  by_cases h : s.getD a 0 = 3
  · rw [if_pos h]
    exact List.find?_cons_of_pos _ (beq_iff_eq.mpr h)
  · rw [if_neg h]
    exact List.find?_cons_of_neg _ (by simpa using h)

lemma find?_shape3 (s : List ℕ) :
    List.find? (fun dim => s.getD dim 0 == 3) [0, 1, 2]
      = if s.getD 0 0 = 3 then some 0 else if s.getD 1 0 = 3 then some 1 else
        if s.getD 2 0 = 3 then some 2 else none := by
  rw [find?_shape_cons, find?_shape_cons, find?_shape_cons, List.find?_nil]

/-- C9 (amended): `convert_to_single_channel` applies the size-3-axis
heuristic only to 3-dimensional arrays — there it returns the first slice
along the lowest-index axis of size 3, and an array with no size-3 axis, or
any array that is not 3-dimensional, is returned unchanged. -/
theorem C9_single_channel (t : Tensor) :
    (t.shape.length = 3 →
      (∀ d : ℕ, d < 3 → t.shape.getD d 0 = 3 → (∀ e, e < d → t.shape.getD e 0 ≠ 3) →
        convert_to_single_channel t = t.select d 0)
      ∧ ((∀ d, d < 3 → t.shape.getD d 0 ≠ 3) → convert_to_single_channel t = t))
    ∧ (t.shape.length ≠ 3 → convert_to_single_channel t = t) := by
  have hr : List.range 3 = [0, 1, 2] := rfl
  constructor
  · intro hlen
    constructor
    · intro d hd h3 hleast
      interval_cases d
      · unfold convert_to_single_channel
        rw [if_pos hlen, hr, find?_shape3, if_pos h3]
      · have hn0 : t.shape.getD 0 0 ≠ 3 := hleast 0 (by norm_num)
        unfold convert_to_single_channel
        rw [if_pos hlen, hr, find?_shape3, if_neg hn0, if_pos h3]
      · have hn0 : t.shape.getD 0 0 ≠ 3 := hleast 0 (by norm_num)
        have hn1 : t.shape.getD 1 0 ≠ 3 := hleast 1 (by norm_num)
        unfold convert_to_single_channel
        rw [if_pos hlen, hr, find?_shape3, if_neg hn0, if_neg hn1, if_pos h3]
    · intro hnone
      have hn0 : t.shape.getD 0 0 ≠ 3 := hnone 0 (by norm_num)
      have hn1 : t.shape.getD 1 0 ≠ 3 := hnone 1 (by norm_num)
      have hn2 : t.shape.getD 2 0 ≠ 3 := hnone 2 (by norm_num)
      unfold convert_to_single_channel
      rw [if_pos hlen, hr, find?_shape3, if_neg hn0, if_neg hn1, if_neg hn2]
  · intro hlen
    unfold convert_to_single_channel
    rw [if_neg hlen]

/-- C9 witness: the amended statement applied to a concrete 3-dimensional
tensor of shape (2, 3, 4), whose lowest size-3 axis is axis 1. -/
theorem C9_single_channel_witness :
    convert_to_single_channel wGray3 = wGray3.select 1 0 :=
  ((C9_single_channel wGray3).1 (by decide)).1 1 (by decide) (by decide)
    (by decide)

/-- C9 counterexample: the 2-dimensional raster `cexGray` of shape (3, 2)
has an axis with exactly 3 entries, yet `convert_to_single_channel` returns
it unchanged instead of its first slice along that axis. -/
theorem C9_single_channel_counterexample :
    cexGray.shape.getD 0 0 = 3
    ∧ convert_to_single_channel cexGray ≠ cexGray.select 0 0 := by
  decide
